import Mathlib

/-!
Verification development for the Spotify-to-YouTube migration engine
(`src/new.py`).  The asynchronous core — retry ladder, quota breaker,
per-song worker, resume filter, progress ledger — is shallowly embedded
as pure Lean functions; HTTP traffic is abstracted as environments
mapping attempt numbers to responses, and the global `quota_exceeded`
flag is threaded explicitly through every function that reads or writes
it in the source.
-/

namespace Spotify2YT

/-- Configuration constant `RETRY_ATTEMPTS = 3` from `new.py`. -/
def RETRY_ATTEMPTS : Nat := 3

/-- Configuration constant `RETRY_DELAY = 5` from `new.py`. -/
def RETRY_DELAY : Nat := 5

/-- One candidate returned by the remote search endpoint: the fields of a
search result that `async_search_youtube` inspects
(`item["snippet"]["title"]` and `item["id"]["videoId"]`). -/
structure Item where
  title : String
  videoId : String
deriving DecidableEq, Repr

/-- One HTTP response to a search request: either a response with a
status code and (for status 200) a decoded item list, or a
network-level error (`aiohttp.ClientError`). -/
inductive Resp
  | http (status : Nat) (items : List Item)
  | netErr
deriving DecidableEq, Repr

/-- One HTTP response to a playlist-insert request. -/
inductive IResp
  | http (status : Nat)
  | netErr
deriving DecidableEq, Repr

/-- Observable events of a worker run: each HTTP request actually
dispatched to the remote API (search or insert, with its attempt
number), and each backoff sleep with its duration in seconds. -/
inductive Ev
  | searchCall (attempt : Nat)
  | insertCall (attempt : Nat)
  | sleep (secs : Nat)
deriving DecidableEq, Repr

/-- Scoring key of the `max(items, key=...)` call in
`async_search_youtube`: 0 when the lowercased title contains the
substring "live", else 1. -/
def score (it : Item) : Nat :=
  if (it.title.toLower.splitOn "live").length > 1 then 0 else 1

/-- Python `max` with the scoring key: scans left to right keeping the
first element of maximal score (later elements replace the current best
only on strictly greater score). -/
def best_item : Item → List Item → Item
  | b, [] => b
  | b, x :: xs => best_item (if score b < score x then x else b) xs

/-- Build a response environment from a list of per-attempt responses,
with a default for attempts beyond the list. -/
def envOf (l : List Resp) (d : Resp) : Nat → Resp := fun n => l.getD n d

/-- Build an insert response environment from a list. -/
def ienvOf (l : List IResp) (d : IResp) : Nat → IResp := fun n => l.getD n d

/-- The retry loop of `async_search_youtube` (lines 149-186 of
`new.py`).  `a` is the current attempt number, `f` the number of
attempts remaining (`f = RETRY_ATTEMPTS - a` on entry), `q` the value
of the global `quota_exceeded` flag.  Returns the optional video id,
the flag value on exit, and the event trace.  Note: the loop body never
reads `q`; it only writes it (sets it to `true`) when the final attempt
fails with status 403 or 429. -/
def searchLoop (env : Nat → Resp) : Nat → Nat → Bool → Option String × Bool × List Ev
  | _, 0, q => (none, q, [])
  | a, f + 1, q =>
    match env a with
    | .netErr =>
      if f = 0 then (none, q, [.searchCall a])
      else
        let r := searchLoop env (a + 1) f q
        (r.1, r.2.1, .searchCall a :: .sleep RETRY_DELAY :: r.2.2)
    | .http s items =>
      if s = 200 then
        match items with
        | [] => (none, q, [.searchCall a])
        | x :: xs => (some (best_item x xs).videoId, q, [.searchCall a])
      else if s = 403 ∨ s = 429 then
        if f = 0 then (none, true, [.searchCall a])
        else
          let w := RETRY_DELAY * 2 ^ a
          let r := searchLoop env (a + 1) f q
          (r.1, r.2.1, .searchCall a :: .sleep w :: r.2.2)
      else (none, q, [.searchCall a])

/-- `async_search_youtube` (lines 136-186): returns `None` immediately
when the quota flag is already set, otherwise runs the retry loop. -/
def async_search_youtube (env : Nat → Resp) (q : Bool) :
    Option String × Bool × List Ev :=
  if q then (none, q, []) else searchLoop env 0 RETRY_ATTEMPTS q

/-- The retry loop of `async_add_to_playlist` (lines 208-239): status
200 and status 409 ("already exists") both return success; 403/429
retries with exponential backoff and trips the flag on the final
attempt; any other status fails immediately; a network error retries
with fixed backoff. -/
def insertLoop (env : Nat → IResp) : Nat → Nat → Bool → Bool × Bool × List Ev
  | _, 0, q => (false, q, [])
  | a, f + 1, q =>
    match env a with
    | .netErr =>
      if f = 0 then (false, q, [.insertCall a])
      else
        let r := insertLoop env (a + 1) f q
        (r.1, r.2.1, .insertCall a :: .sleep RETRY_DELAY :: r.2.2)
    | .http s =>
      if s = 200 then (true, q, [.insertCall a])
      else if s = 409 then (true, q, [.insertCall a])
      else if s = 403 ∨ s = 429 then
        if f = 0 then (false, true, [.insertCall a])
        else
          let w := RETRY_DELAY * 2 ^ a
          let r := insertLoop env (a + 1) f q
          (r.1, r.2.1, .insertCall a :: .sleep w :: r.2.2)
      else (false, q, [.insertCall a])

/-- `async_add_to_playlist` (lines 189-239): returns `False`
immediately when the quota flag is already set, otherwise runs the
retry loop. -/
def async_add_to_playlist (env : Nat → IResp) (q : Bool) :
    Bool × Bool × List Ev :=
  if q then (false, q, []) else insertLoop env 0 RETRY_ATTEMPTS q

/-- Outcome statuses recorded by `process_song_worker`. -/
inductive Status
  | added
  | not_found
  | failed_to_add
  | quota_exceeded
deriving DecidableEq, Repr

/-- The per-song outcome record (the fields the worker writes into the
song dict: its index, final status and optional video id). -/
structure Outcome where
  id : Nat
  status : Status
  video_id : Option String
deriving DecidableEq, Repr

/-- A work item as built by `main` (lines 343-345). -/
structure WorkItem where
  id : Nat
  total : Nat
  query : String
deriving DecidableEq, Repr

/-- `process_song_worker` (lines 242-284), sequentialised: the global
flag is threaded through the search and insert calls.  The worker
checks the flag on entry, re-checks it after the search, and — when the
search produced a match — classifies the insert result as
added / quota_exceeded / failed_to_add. -/
def process_song_worker (senv : Nat → Resp) (ienv : Nat → IResp)
    (song : WorkItem) (q : Bool) : Outcome × Bool × List Ev :=
  if q then (⟨song.id, .quota_exceeded, none⟩, q, [])
  else
    let r := async_search_youtube senv q
    if r.2.1 then (⟨song.id, .quota_exceeded, none⟩, r.2.1, r.2.2)
    else
      match r.1 with
      | some v =>
        let ir := async_add_to_playlist ienv r.2.1
        if ir.1 then (⟨song.id, .added, some v⟩, ir.2.1, r.2.2 ++ ir.2.2)
        else if ir.2.1 then
          (⟨song.id, .quota_exceeded, some v⟩, ir.2.1, r.2.2 ++ ir.2.2)
        else (⟨song.id, .failed_to_add, some v⟩, ir.2.1, r.2.2 ++ ir.2.2)
      | none => (⟨song.id, .not_found, none⟩, r.2.1, r.2.2)

/-- Whether an event is a remote HTTP request (search or insert). -/
def isCall : Ev → Bool
  | .searchCall _ => true
  | .insertCall _ => true
  | .sleep _ => false

/-- Number of remote HTTP requests in a trace. -/
def remoteCalls (evs : List Ev) : Nat := (evs.filter isCall).length

/-- Whether an event is an insert HTTP request. -/
def isInsertCall : Ev → Bool
  | .insertCall _ => true
  | _ => false

/-- Number of insert HTTP requests in a trace. -/
def insertCalls (evs : List Ev) : Nat := (evs.filter isInsertCall).length

/-- The backoff durations of a trace, in order. -/
def sleeps (evs : List Ev) : List Nat :=
  evs.filterMap fun e => match e with | .sleep n => some n | _ => none

/-!
### Interleaved small-step model of one searching worker

`async_search_youtube` runs concurrently with sibling workers that may
set the global `quota_exceeded` flag at any await point.  The machine
below makes the interleaving explicit: `Act.work` advances the worker
by one atomic step (flag check, one HTTP attempt, or waking from a
backoff sleep), `Act.trip` models a sibling setting the flag.  Each
dispatched HTTP request is recorded together with the flag value at the
moment of dispatch.
-/

/-- Control point of the search retry loop: about to check the flag at
function entry, about to issue attempt `a` with `f` attempts remaining,
sleeping before attempt `a`, or returned with result `r`. -/
inductive WPhase
  | entry
  | attempt (a : Nat) (f : Nat)
  | sleeping (a : Nat) (f : Nat)
  | done (r : Option String)
deriving DecidableEq, Repr

/-- Shared flag plus the worker's control point. -/
structure CState where
  flag : Bool
  ph : WPhase
deriving DecidableEq, Repr

/-- Scheduler actions: advance the worker one step, or let a sibling
worker trip the quota flag. -/
inductive Act
  | work
  | trip
deriving DecidableEq, Repr

/-- One atomic step of the searching worker, mirroring the loop body of
`async_search_youtube`.  The flag is read only at `entry`; the loop
body never re-reads it (it only sets it on final-attempt quota
failure).  Emits `(flag at dispatch, attempt number)` for each HTTP
request issued. -/
def stepW (env : Nat → Resp) (s : CState) : CState × List (Bool × Nat) :=
  match s.ph with
  | .entry =>
    if s.flag then ({ s with ph := .done none }, [])
    else ({ s with ph := .attempt 0 RETRY_ATTEMPTS }, [])
  | .attempt a f =>
    match f with
    | 0 => ({ s with ph := .done none }, [])
    | f' + 1 =>
      match env a with
      | .netErr =>
        if f' = 0 then ({ s with ph := .done none }, [(s.flag, a)])
        else ({ s with ph := .sleeping (a + 1) f' }, [(s.flag, a)])
      | .http st items =>
        if st = 200 then
          match items with
          | [] => ({ s with ph := .done none }, [(s.flag, a)])
          | x :: xs =>
            ({ s with ph := .done (some (best_item x xs).videoId) }, [(s.flag, a)])
        else if st = 403 ∨ st = 429 then
          if f' = 0 then ({ flag := true, ph := .done none }, [(s.flag, a)])
          else ({ s with ph := .sleeping (a + 1) f' }, [(s.flag, a)])
        else ({ s with ph := .done none }, [(s.flag, a)])
  | .sleeping a f => ({ s with ph := .attempt a f }, [])
  | .done _ => (s, [])

/-- Run a schedule of actions from a state, collecting every dispatched
HTTP request with the flag value at its dispatch. -/
def runSched (env : Nat → Resp) : List Act → CState → CState × List (Bool × Nat)
  | [], s => (s, [])
  | .work :: acts, s =>
    let p := stepW env s
    let r := runSched env acts p.1
    (r.1, p.2 ++ r.2)
  | .trip :: acts, s => runSched env acts { s with flag := true }

/-- Number of HTTP requests dispatched while the flag was already
true. -/
def callsAfterTrip (tr : List (Bool × Nat)) : Nat :=
  (tr.filter fun c => c.1).length

/-!
### File-system model of the progress ledger write
-/

/-- The ledger file path, `PROGRESS_FILE = "progress.json"`. -/
def PROGRESS_FILE : String := "progress.json"

/-- File-system operations on the ledger path: opening a path in mode
"w" (which truncates it in place) and writing a byte string to the open
file. -/
inductive FsOp
  | openTrunc (path : String)
  | writeAll (path : String) (data : List Char)
deriving DecidableEq, Repr

/-- Effect of one completed operation on the target file's content. -/
def applyOp (cur : List Char) : FsOp → List Char
  | .openTrunc _ => []
  | .writeAll _ data => cur ++ data

/-- Content of the target file after a whole operation sequence. -/
def runOps (cur : List Char) (ops : List FsOp) : List Char :=
  ops.foldl applyOp cur

/-- Contents observable if the process crashes in the middle of one
operation: truncation is atomic, while a write may have flushed any
proper prefix of its data. -/
def midStates (cur : List Char) : FsOp → List (List Char)
  | .openTrunc _ => []
  | .writeAll _ data => (List.range data.length).map fun k => cur ++ data.take k

/-- All contents of the target file observable if the process crashes
at any point during the operation sequence: before each operation,
inside a write, or after the final operation. -/
def crashStates (cur : List Char) : List FsOp → List (List Char)
  | [] => [cur]
  | op :: ops => cur :: (midStates cur op ++ crashStates (applyOp cur op) ops)

/-- `save_progress` (lines 303-317 of `new.py`): it opens
`PROGRESS_FILE` itself with mode "w" — truncating the previous ledger
in place — and then serializes the full state into it.  No temporary
file is created and no rename is performed. -/
def save_progress_ops (content : List Char) : List FsOp :=
  [.openTrunc PROGRESS_FILE, .writeAll PROGRESS_FILE content]

/-!
### Progress ledger: load, merge, and the resume filter of `main`
-/

/-- Parsed shape of the progress file as read by `load_progress`:
`data.get("processed_indices", [])` and `data.get("songs", {})`, where
either key may be absent; `none` at the outer level models a missing
file or one that fails to parse. -/
structure LedgerFile where
  processed_indices : Option (List Nat)
  songs : Option (List (String × Outcome))
deriving DecidableEq, Repr

/-- `load_progress` (lines 290-300). -/
def load_progress : Option LedgerFile → List Nat × List (String × Outcome)
  | none => ([], [])
  | some f => (f.processed_indices.getD [], f.songs.getD [])

/-- Python `set.add` on the processed-index set. -/
def setAdd (p : List Nat) (i : Nat) : List Nat :=
  if i ∈ p then p else p ++ [i]

/-- Python dict assignment `song_data[k] = v`. -/
def mapInsert (s : List (String × Outcome)) (k : String) (v : Outcome) :
    List (String × Outcome) :=
  if k ∈ s.map Prod.fst then s.map fun kv => if kv.1 = k then (k, v) else kv
  else s ++ [(k, v)]

/-- The post-batch merge of `main` (lines 371-376): results that are
exceptions are skipped; every other result adds its index to the
processed set and stores the outcome under the stringified index. -/
def mergeResults (p : List Nat) (s : List (String × Outcome)) :
    List (Except String Outcome) → List Nat × List (String × Outcome)
  | [] => (p, s)
  | .error _ :: rest => mergeResults p s rest
  | .ok o :: rest => mergeResults (setAdd p o.id) (mapInsert s (toString o.id) o) rest

/-- Ledger invariant stated by the spec: the processed-index set equals
the key set of the outcomes map, under the index-to-string coercion the
code applies when storing outcomes. -/
def ledgerInv (p : List Nat) (s : List (String × Outcome)) : Prop :=
  (∀ i ∈ p, toString i ∈ s.map Prod.fst) ∧
  (∀ k ∈ s.map Prod.fst, ∃ i ∈ p, toString i = k)

instance (p : List Nat) (s : List (String × Outcome)) : Decidable (ledgerInv p s) := by
  unfold ledgerInv
  infer_instance

/-- Python `enumerate(spotify_songs, 1)`. -/
def enumerate1 (songs : List String) : List (Nat × String) :=
  (List.range' 1 songs.length).zip songs

/-- Task preparation of `main` (lines 339-345): keep the items whose
index is not in the processed set, in source order, each carrying its
1-based index, the total count and its query. -/
def songs_to_process (songs : List String) (processed : List Nat) : List WorkItem :=
  ((enumerate1 songs).filter fun pr => !(processed.contains pr.1)).map
    fun pr => ⟨pr.1, songs.length, pr.2⟩

/-- Observable scheduling events of `main`: dispatching a worker for an
index and invoking `save_progress`. -/
inductive MainEv
  | dispatch (id : Nat)
  | save
deriving DecidableEq, Repr

/-- Control flow of `main` (lines 320-390) at the scheduling level: an
empty source list returns before loading the ledger; an empty remaining
set returns before creating any task; otherwise tasks are created for
every remaining item in source order and `save_progress` runs once
after the batch.  The quota flag is reset to false at the start of the
run and the task-creation loop is synchronous (no worker body runs
before `asyncio.gather`), so the loop's early-exit flag check never
fires during creation. -/
def mainEvents (spotify_songs : List String) (lf : Option LedgerFile) : List MainEv :=
  if spotify_songs.isEmpty then []
  else
    let processed := (load_progress lf).1
    let stp := songs_to_process spotify_songs processed
    if stp.isEmpty then []
    else (stp.map fun it => MainEv.dispatch it.id) ++ [MainEv.save]

/-- Derived predicate: the search retry ladder starting at attempt `a`
with `f` attempts remaining ends by exhausting its final attempt on a
rate-limit status (403/429), i.e. the run that sets the quota flag. -/
def tripsFrom (env : Nat → Resp) : Nat → Nat → Bool
  | _, 0 => false
  | a, f + 1 =>
    match env a with
    | .netErr => if f = 0 then false else tripsFrom env (a + 1) f
    | .http s _ =>
      if s = 200 then false
      else if s = 403 ∨ s = 429 then
        if f = 0 then true else tripsFrom env (a + 1) f
      else false

/-- Derived predicate: the insert retry ladder ends by exhausting its
final attempt on a rate-limit status. -/
def itripsFrom (env : Nat → IResp) : Nat → Nat → Bool
  | _, 0 => false
  | a, f + 1 =>
    match env a with
    | .netErr => if f = 0 then false else itripsFrom env (a + 1) f
    | .http s =>
      if s = 200 then false
      else if s = 409 then false
      else if s = 403 ∨ s = 429 then
        if f = 0 then true else itripsFrom env (a + 1) f
      else false

theorem searchLoop_flag (env : Nat → Resp) (q : Bool) :
    ∀ f a, (searchLoop env a f q).2.1 = (q || tripsFrom env a f) := by
  intro f
  induction f with
  | zero => intro a; simp [searchLoop, tripsFrom]
  | succ f ih =>
    intro a
    unfold searchLoop tripsFrom
    cases h : env a with
    | netErr =>
      by_cases hf : f = 0 <;> simp [hf, ih]
    | http s items =>
      by_cases h200 : s = 200
      · cases items <;> simp [h200]
      · by_cases hq : s = 403 ∨ s = 429
        · by_cases hf : f = 0 <;> simp [h200, hq, hf, ih]
        · simp [h200, hq]

theorem insertLoop_flag (env : Nat → IResp) (q : Bool) :
    ∀ f a, (insertLoop env a f q).2.1 = (q || itripsFrom env a f) := by
  intro f
  induction f with
  | zero => intro a; simp [insertLoop, itripsFrom]
  | succ f ih =>
    intro a
    unfold insertLoop itripsFrom
    cases h : env a with
    | netErr =>
      by_cases hf : f = 0 <;> simp [hf, ih]
    | http s =>
      by_cases h200 : s = 200
      · simp [h200]
      · by_cases h409 : s = 409
        · simp [h200, h409]
        · by_cases hq : s = 403 ∨ s = 429
          · by_cases hf : f = 0 <;> simp [h200, h409, hq, hf, ih]
          · simp [h200, h409, hq]

theorem remoteCalls_append (a b : List Ev) :
    remoteCalls (a ++ b) = remoteCalls a + remoteCalls b := by
  simp [remoteCalls, List.filter_append]

theorem insertCalls_append (a b : List Ev) :
    insertCalls (a ++ b) = insertCalls a + insertCalls b := by
  simp [insertCalls, List.filter_append]

theorem searchLoop_remoteCalls_le (env : Nat → Resp) (q : Bool) :
    ∀ f a, remoteCalls (searchLoop env a f q).2.2 ≤ f := by
  intro f
  induction f with
  | zero => intro a; simp [searchLoop, remoteCalls]
  | succ f ih =>
    intro a
    unfold searchLoop
    cases h : env a with
    | netErr =>
      by_cases hf : f = 0
      · simp [hf, remoteCalls, isCall]
      · simp only [hf, if_false]
        simpa [remoteCalls, isCall, Nat.add_comm] using
          Nat.add_le_add_right (ih (a + 1)) 1
    | http s items =>
      by_cases h200 : s = 200
      · cases items <;> simp [h200, remoteCalls, isCall]
      · by_cases hq : s = 403 ∨ s = 429
        · by_cases hf : f = 0
          · simp [h200, hq, hf, remoteCalls, isCall]
          · simp only [h200, hq, hf, if_false, if_true]
            simpa [remoteCalls, isCall, Nat.add_comm] using
              Nat.add_le_add_right (ih (a + 1)) 1
        · simp [h200, hq, remoteCalls, isCall]

theorem searchLoop_remoteCalls_pos (env : Nat → Resp) (q : Bool) :
    ∀ f a, 0 < f → 0 < remoteCalls (searchLoop env a f q).2.2 := by
  intro f
  cases f with
  | zero => intro a h; exact absurd h (by simp)
  | succ f =>
    intro a _
    unfold searchLoop
    cases h : env a with
    | netErr => by_cases hf : f = 0 <;> simp [hf, remoteCalls, isCall]
    | http s items =>
      by_cases h200 : s = 200
      · cases items <;> simp [h200, remoteCalls, isCall]
      · by_cases hq : s = 403 ∨ s = 429
        · by_cases hf : f = 0 <;> simp [h200, hq, hf, remoteCalls, isCall]
        · simp [h200, hq, remoteCalls, isCall]

theorem insertLoop_remoteCalls_le (env : Nat → IResp) (q : Bool) :
    ∀ f a, remoteCalls (insertLoop env a f q).2.2 ≤ f := by
  intro f
  induction f with
  | zero => intro a; simp [insertLoop, remoteCalls]
  | succ f ih =>
    intro a
    unfold insertLoop
    cases h : env a with
    | netErr =>
      by_cases hf : f = 0
      · simp [hf, remoteCalls, isCall]
      · simp only [hf, if_false]
        simpa [remoteCalls, isCall, Nat.add_comm] using
          Nat.add_le_add_right (ih (a + 1)) 1
    | http s =>
      by_cases h200 : s = 200
      · simp [h200, remoteCalls, isCall]
      · by_cases h409 : s = 409
        · simp [h200, h409, remoteCalls, isCall]
        · by_cases hq : s = 403 ∨ s = 429
          · by_cases hf : f = 0
            · simp [h200, h409, hq, hf, remoteCalls, isCall]
            · simp only [h200, h409, hq, hf, if_false, if_true]
              simpa [remoteCalls, isCall, Nat.add_comm] using
                Nat.add_le_add_right (ih (a + 1)) 1
          · simp [h200, h409, hq, remoteCalls, isCall]

theorem insertLoop_remoteCalls_pos (env : Nat → IResp) (q : Bool) :
    ∀ f a, 0 < f → 0 < remoteCalls (insertLoop env a f q).2.2 := by
  intro f
  cases f with
  | zero => intro a h; exact absurd h (by simp)
  | succ f =>
    intro a _
    unfold insertLoop
    cases h : env a with
    | netErr => by_cases hf : f = 0 <;> simp [hf, remoteCalls, isCall]
    | http s =>
      by_cases h200 : s = 200
      · simp [h200, remoteCalls, isCall]
      · by_cases h409 : s = 409
        · simp [h200, h409, remoteCalls, isCall]
        · by_cases hq : s = 403 ∨ s = 429
          · by_cases hf : f = 0 <;> simp [h200, h409, hq, hf, remoteCalls, isCall]
          · simp [h200, h409, hq, remoteCalls, isCall]

theorem insertCalls_cons_search (a : Nat) (l : List Ev) :
    insertCalls (.searchCall a :: l) = insertCalls l := by
  simp [insertCalls, isInsertCall]

theorem insertCalls_cons_sleep (n : Nat) (l : List Ev) :
    insertCalls (.sleep n :: l) = insertCalls l := by
  simp [insertCalls, isInsertCall]

theorem searchLoop_insertCalls (env : Nat → Resp) (q : Bool) :
    ∀ f a, insertCalls (searchLoop env a f q).2.2 = 0 := by
  intro f
  induction f with
  | zero => intro a; simp [searchLoop, insertCalls]
  | succ f ih =>
    intro a
    unfold searchLoop
    cases h : env a with
    | netErr =>
      by_cases hf : f = 0
      · simp [hf, insertCalls, isInsertCall]
      · simp only [hf, if_false, insertCalls_cons_search, insertCalls_cons_sleep]
        exact ih (a + 1)
    | http s items =>
      by_cases h200 : s = 200
      · cases items <;> simp [h200, insertCalls, isInsertCall]
      · by_cases hq : s = 403 ∨ s = 429
        · by_cases hf : f = 0
          · simp [h200, hq, hf, insertCalls, isInsertCall]
          · simp only [h200, hq, hf, if_false, if_true, insertCalls_cons_search,
              insertCalls_cons_sleep]
            exact ih (a + 1)
        · simp [h200, hq, insertCalls, isInsertCall]

theorem async_search_first200 (senv : Nat → Resp) (x : Item) (xs : List Item)
    (h : senv 0 = .http 200 (x :: xs)) :
    async_search_youtube senv false =
      (some (best_item x xs).videoId, false, [.searchCall 0]) := by
  simp [async_search_youtube, RETRY_ATTEMPTS, searchLoop, h]

theorem async_search_first200_nil (senv : Nat → Resp)
    (h : senv 0 = .http 200 []) :
    async_search_youtube senv false = (none, false, [.searchCall 0]) := by
  simp [async_search_youtube, RETRY_ATTEMPTS, searchLoop, h]

theorem async_add_first_ok (ienv : Nat → IResp) (st : Nat)
    (h : ienv 0 = .http st) (hst : st = 200 ∨ st = 409) :
    async_add_to_playlist ienv false = (true, false, [.insertCall 0]) := by
  rcases hst with rfl | rfl <;>
    simp [async_add_to_playlist, RETRY_ATTEMPTS, insertLoop, h]

theorem async_add_first_fail (ienv : Nat → IResp) (st : Nat)
    (h : ienv 0 = .http st) (h200 : st ≠ 200) (h409 : st ≠ 409)
    (h403 : st ≠ 403) (h429 : st ≠ 429) :
    async_add_to_playlist ienv false = (false, false, [.insertCall 0]) := by
  simp [async_add_to_playlist, RETRY_ATTEMPTS, insertLoop, h, h200, h409, h403, h429]

theorem async_add_quota_exhaust (ienv : Nat → IResp) (st : Nat)
    (hst : st = 403 ∨ st = 429) (h0 : ienv 0 = .http st)
    (h1 : ienv 1 = .http st) (h2 : ienv 2 = .http st) :
    async_add_to_playlist ienv false =
      (false, true,
        [.insertCall 0, .sleep 5, .insertCall 1, .sleep 10, .insertCall 2]) := by
  rcases hst with rfl | rfl <;>
    simp [async_add_to_playlist, RETRY_ATTEMPTS, insertLoop, h0, h1, h2, RETRY_DELAY]

theorem runSched_done (env : Nat → Resp) (r : Option String) :
    ∀ acts b, (runSched env acts ⟨b, .done r⟩).2 = [] := by
  intro acts
  induction acts with
  | nil => intro b; simp [runSched]
  | cons a rest ih =>
    intro b
    cases a with
    | work => simpa [runSched, stepW] using ih b
    | trip => simpa [runSched] using ih true

theorem runSched_entry_tripped (env : Nat → Resp) :
    ∀ acts, (runSched env acts ⟨true, .entry⟩).2 = [] := by
  intro acts
  induction acts with
  | nil => simp [runSched]
  | cons a rest ih =>
    cases a with
    | work => simpa [runSched, stepW] using runSched_done env none rest true
    | trip => simpa [runSched] using ih

theorem worker_trace (senv : Nat → Resp) (ienv : Nat → IResp) (song : WorkItem) :
    (process_song_worker senv ienv song false).2.2 =
      (async_search_youtube senv false).2.2 ∨
    (process_song_worker senv ienv song false).2.2 =
      (async_search_youtube senv false).2.2 ++
        (async_add_to_playlist ienv false).2.2 := by
  unfold process_song_worker
  cases hq1 : (async_search_youtube senv false).2.1 with
  | false =>
    cases hvid : (async_search_youtube senv false).1 with
    | none => simp [hq1, hvid]
    | some v =>
      cases hi1 : (async_add_to_playlist ienv false).1 <;>
        cases hi21 : (async_add_to_playlist ienv false).2.1 <;>
          simp [hq1, hvid, hi1, hi21]
  | true => simp [hq1]

/-!
### Claims
-/

/-- Claim C1, counterexample.  The claim says the ledger save is an
atomic whole-file replace, so that at every crash point the ledger file
is either the intact prior ledger or the complete new one.  This is
false for `save_progress`: it truncates `progress.json` in place before
writing, so the crash state just after the truncating open (and any
partial write) is neither the prior content nor the new content.  Here,
with prior content "a" and new content "bc", the empty file is an
observable crash state. -/
theorem C1_counterexample :
    ¬ (∀ s ∈ crashStates "a".toList (save_progress_ops "bc".toList),
        s = "a".toList ∨ s = "bc".toList) := by
  decide

/-- Claim C1, amended.  `save_progress` performs a whole-file replace:
after the operation sequence completes, the file content is exactly the
new serialization, independent of the prior content (never an append).
But the write is not crash-atomic: the file is truncated in place, so a
crash mid-save can leave any prefix of the new content (including the
empty file); only a crash strictly before the save leaves the prior
ledger intact. -/
theorem C1_save_whole_file_replace_but_not_atomic (oldC newC : List Char) :
    runOps oldC (save_progress_ops newC) = newC ∧
    ∀ s ∈ crashStates oldC (save_progress_ops newC), s = oldC ∨ s <+: newC := by
  constructor
  · simp [runOps, save_progress_ops, applyOp]
  · have hcs : crashStates oldC (save_progress_ops newC) =
        oldC :: [] ::
          (((List.range newC.length).map fun k => newC.take k) ++ [newC]) := by
      rfl
    intro s hs
    rw [hcs] at hs
    rcases List.mem_cons.mp hs with h | hs1
    · exact Or.inl h
    rcases List.mem_cons.mp hs1 with h | hs2
    · subst h
      exact Or.inr ⟨newC, rfl⟩
    rcases List.mem_append.mp hs2 with hs3 | hs4
    · rcases List.mem_map.mp hs3 with ⟨k, hk, hks⟩
      exact Or.inr (hks ▸ List.take_prefix k newC)
    · rw [List.mem_singleton.mp hs4]
      exact Or.inr (List.prefix_refl newC)

/-- Witness for the amended claim C1, at prior content "a" and new
content "bc", evaluated at the post-truncation crash state. -/
theorem C1_save_whole_file_replace_but_not_atomic_witness :
    runOps "a".toList (save_progress_ops "bc".toList) = "bc".toList ∧
    ([] = "a".toList ∨ [] <+: "bc".toList) :=
  ⟨(C1_save_whole_file_replace_but_not_atomic "a".toList "bc".toList).1,
   (C1_save_whole_file_replace_but_not_atomic "a".toList "bc".toList).2 [] (by decide)⟩

/-- Claim C2, counterexample.  The claim says that once the quota flag
is set, no worker issues any further remote call, including a worker
that was mid-retry-backoff when a sibling set the flag.  False: the
retry loop of `async_search_youtube` never re-reads the flag, so a
worker sleeping between attempts resumes and issues its next HTTP
request even though the flag is now true.  Schedule: the worker checks
the flag (clear), attempt 0 gets 429 and the worker starts its backoff
sleep, a sibling trips the flag, the worker wakes and dispatches
attempt 1 — one remote call issued after the trip. -/
theorem C2_counterexample :
    callsAfterTrip
      (runSched (envOf [] (.http 429 []))
        [.work, .work, .trip, .work, .work] ⟨false, .entry⟩).2 = 1 := by
  decide

/-- Claim C2, amended.  The quota flag is consulted at worker entry, at
client-call entry, and at the re-check after the search — not between
retry attempts.  Consequently: a searching worker that begins after the
trip issues no remote call under any interleaving; a worker dispatched
after the trip emits Outcome `quota_exceeded` immediately with no
remote call; and a worker whose search returns with the flag set emits
`quota_exceeded` and never issues its insert call.  (A worker already
inside a retry ladder when the flag is set, however, continues its
remaining attempts — the counterexample.) -/
theorem C2_breaker_checked_at_entry_and_after_search
    (env : Nat → Resp) (acts : List Act)
    (senv : Nat → Resp) (ienv : Nat → IResp) (song : WorkItem)
    (h : (async_search_youtube senv false).2.1 = true) :
    (runSched env acts ⟨true, .entry⟩).2 = [] ∧
    process_song_worker senv ienv song true =
      (⟨song.id, .quota_exceeded, none⟩, true, []) ∧
    (process_song_worker senv ienv song false).1.status = .quota_exceeded ∧
    insertCalls (process_song_worker senv ienv song false).2.2 = 0 := by
  refine ⟨runSched_entry_tripped env acts, rfl, ?_, ?_⟩
  · simp [process_song_worker, h]
  · have hic : insertCalls (async_search_youtube senv false).2.2 = 0 := by
      simp [async_search_youtube, searchLoop_insertCalls]
    simp [process_song_worker, h, hic]

/-- Witness for the amended claim C2: a search environment answering
429 on every attempt trips the flag, and the worker then reports
`quota_exceeded` without any insert call. -/
theorem C2_breaker_checked_at_entry_and_after_search_witness :
    (runSched (envOf [] (.http 429 [])) [.work, .work] ⟨true, .entry⟩).2 = [] ∧
    process_song_worker (envOf [] (.http 429 [])) (ienvOf [] (.http 429))
        ⟨7, 9, "q"⟩ true =
      (⟨7, .quota_exceeded, none⟩, true, []) ∧
    (process_song_worker (envOf [] (.http 429 [])) (ienvOf [] (.http 429))
        ⟨7, 9, "q"⟩ false).1.status = .quota_exceeded ∧
    insertCalls ((process_song_worker (envOf [] (.http 429 []))
        (ienvOf [] (.http 429)) ⟨7, 9, "q"⟩ false).2.2) = 0 :=
  C2_breaker_checked_at_entry_and_after_search (envOf [] (.http 429 []))
    [.work, .work] (envOf [] (.http 429 [])) (ienvOf [] (.http 429))
    ⟨7, 9, "q"⟩ (by decide)

/-- Claim C3, counterexample.  The claim says each worker invocation
issues exactly zero or exactly two remote calls.  False: when the
search succeeds on its first attempt but returns no items, the worker
issues exactly one remote call (the search) and records `not_found`
without ever calling the insert endpoint. -/
theorem C3_counterexample :
    ¬ (remoteCalls (process_song_worker (envOf [.http 200 []] (.http 429 []))
          (ienvOf [] (.http 429)) ⟨1, 1, "q"⟩ false).2.2 = 0 ∨
       remoteCalls (process_song_worker (envOf [.http 200 []] (.http 429 []))
          (ienvOf [] (.http 429)) ⟨1, 1, "q"⟩ false).2.2 = 2) := by
  decide

/-- Claim C3, amended.  A worker invocation entered with the breaker
tripped issues zero remote calls; otherwise it issues at least one and
at most `2 * RETRY_ATTEMPTS` HTTP requests (1..R for the search ladder
plus 0..R for the insert ladder).  In the no-retry case this is exactly
one request when the search yields no match and exactly two when a
first-attempt match is inserted on the first attempt. -/
theorem C3_remote_call_count (senv : Nat → Resp) (ienv : Nat → IResp)
    (song : WorkItem) :
    (process_song_worker senv ienv song true).2.2 = [] ∧
    (0 < remoteCalls (process_song_worker senv ienv song false).2.2 ∧
      remoteCalls (process_song_worker senv ienv song false).2.2 ≤
        2 * RETRY_ATTEMPTS) ∧
    (senv 0 = .http 200 [] →
      remoteCalls (process_song_worker senv ienv song false).2.2 = 1) ∧
    (∀ x xs, senv 0 = .http 200 (x :: xs) → ienv 0 = .http 200 →
      remoteCalls (process_song_worker senv ienv song false).2.2 = 2) := by
  have hspos : 0 < remoteCalls (async_search_youtube senv false).2.2 := by
    simpa [async_search_youtube] using
      searchLoop_remoteCalls_pos senv false RETRY_ATTEMPTS 0 (by norm_num [RETRY_ATTEMPTS])
  have hsle : remoteCalls (async_search_youtube senv false).2.2 ≤ RETRY_ATTEMPTS := by
    simpa [async_search_youtube] using
      searchLoop_remoteCalls_le senv false RETRY_ATTEMPTS 0
  have hile : remoteCalls (async_add_to_playlist ienv false).2.2 ≤ RETRY_ATTEMPTS := by
    simpa [async_add_to_playlist] using
      insertLoop_remoteCalls_le ienv false RETRY_ATTEMPTS 0
  refine ⟨rfl, ?_, ?_, ?_⟩
  · rcases worker_trace senv ienv song with h | h <;> rw [h]
    · exact ⟨hspos, le_trans hsle (by norm_num [RETRY_ATTEMPTS])⟩
    · rw [remoteCalls_append]
      constructor
      · exact Nat.lt_of_lt_of_le hspos (Nat.le_add_right _ _)
      · omega
  · intro h0
    simp [process_song_worker, async_search_first200_nil senv h0,
      remoteCalls, isCall]
  · intro x xs h0 hi0
    simp [process_song_worker, async_search_first200 senv x xs h0,
      async_add_first_ok ienv 200 hi0 (Or.inl rfl), remoteCalls, isCall]

/-- Witness for the amended claim C3: one remote call on a first-try
empty search, two on a first-try match plus first-try insert. -/
theorem C3_remote_call_count_witness :
    remoteCalls (process_song_worker (envOf [.http 200 []] (.http 429 []))
        (ienvOf [] (.http 429)) ⟨1, 1, "q"⟩ false).2.2 = 1 ∧
    remoteCalls (process_song_worker (envOf [.http 200 [⟨"t", "v"⟩]] (.http 429 []))
        (ienvOf [.http 200] (.http 429)) ⟨1, 1, "q"⟩ false).2.2 = 2 :=
  ⟨(C3_remote_call_count (envOf [.http 200 []] (.http 429 []))
      (ienvOf [] (.http 429)) ⟨1, 1, "q"⟩).2.2.1 rfl,
   (C3_remote_call_count (envOf [.http 200 [⟨"t", "v"⟩]] (.http 429 []))
      (ienvOf [.http 200] (.http 429)) ⟨1, 1, "q"⟩).2.2.2 ⟨"t", "v"⟩ [] rfl rfl⟩

/-- Claim C4, counterexample.  The claim says any 2xx insert status is
treated as success and yields `added`, never `failed_to_add`.  False:
`async_add_to_playlist` recognises only status 200 (and 409) as
success; an insert answered with status 201 — a 2xx status — falls
through to the generic failure branch and the worker records
`failed_to_add`. -/
theorem C4_counterexample :
    (process_song_worker (envOf [.http 200 [⟨"t", "v"⟩]] (.http 429 []))
      (ienvOf [.http 201] (.http 429)) ⟨1, 1, "q"⟩ false).1.status =
    Status.failed_to_add := by
  decide

/-- Claim C4, amended.  For an insert answered on the first attempt
with status `st`: exactly status 200 or status 409 (conflict) yields
Outcome `added`; any other status that is not 403/429 — including other
2xx statuses such as 201 — yields `failed_to_add`; a rate-limit status
on every attempt yields `quota_exceeded`. -/
theorem C4_insert_status_classification (senv : Nat → Resp) (ienv : Nat → IResp)
    (song : WorkItem) (x : Item) (xs : List Item) (st : Nat)
    (hs : senv 0 = .http 200 (x :: xs)) (hi : ienv 0 = .http st) :
    ((st = 200 ∨ st = 409) →
      (process_song_worker senv ienv song false).1.status = .added) ∧
    (st ≠ 200 → st ≠ 409 → st ≠ 403 → st ≠ 429 →
      (process_song_worker senv ienv song false).1.status = .failed_to_add) ∧
    ((st = 403 ∨ st = 429) → ienv 1 = .http st → ienv 2 = .http st →
      (process_song_worker senv ienv song false).1.status = .quota_exceeded) := by
  refine ⟨?_, ?_, ?_⟩
  · intro hok
    simp [process_song_worker, async_search_first200 senv x xs hs,
      async_add_first_ok ienv st hi hok]
  · intro h200 h409 h403 h429
    simp [process_song_worker, async_search_first200 senv x xs hs,
      async_add_first_fail ienv st hi h200 h409 h403 h429]
  · intro hq h1 h2
    simp [process_song_worker, async_search_first200 senv x xs hs,
      async_add_quota_exhaust ienv st hq hi h1 h2]

/-- Witness for the amended claim C4: a 409 conflict yields `added`. -/
theorem C4_insert_status_classification_witness :
    (process_song_worker (envOf [.http 200 [⟨"t", "v"⟩]] (.http 429 []))
      (ienvOf [.http 409] (.http 429)) ⟨1, 1, "q"⟩ false).1.status =
    Status.added :=
  (C4_insert_status_classification (envOf [.http 200 [⟨"t", "v"⟩]] (.http 429 []))
    (ienvOf [.http 409] (.http 429)) ⟨1, 1, "q"⟩ ⟨"t", "v"⟩ [] 409 rfl rfl).1
    (Or.inr rfl)

/-- Claim C5 (confirmed).  Retry ladder: a search answered with a
rate-limit status (403 or 429) on its first two attempts — waiting
`RETRY_DELAY * 2 ^ 0` then `RETRY_DELAY * 2 ^ 1` seconds — and with a
match on the third (final) attempt leads the worker to Outcome `added`
(the insert succeeding), with the quota flag still clear; a search
answered with a rate-limit status on all three attempts returns no
match and trips the quota flag. -/
theorem C5_retry_ladder (song : WorkItem) (x : Item) (xs : List Item)
    (s1 s2 s3 : Nat)
    (h1 : s1 = 403 ∨ s1 = 429) (h2 : s2 = 403 ∨ s2 = 429)
    (h3 : s3 = 403 ∨ s3 = 429) :
    ((process_song_worker
        (envOf [.http s1 [], .http s2 [], .http 200 (x :: xs)] .netErr)
        (ienvOf [.http 200] .netErr) song false).1.status = .added ∧
      (process_song_worker
        (envOf [.http s1 [], .http s2 [], .http 200 (x :: xs)] .netErr)
        (ienvOf [.http 200] .netErr) song false).2.1 = false ∧
      sleeps (process_song_worker
        (envOf [.http s1 [], .http s2 [], .http 200 (x :: xs)] .netErr)
        (ienvOf [.http 200] .netErr) song false).2.2 =
        [RETRY_DELAY * 2 ^ 0, RETRY_DELAY * 2 ^ 1]) ∧
    async_search_youtube (envOf [.http s1 [], .http s2 [], .http s3 []] .netErr)
        false =
      (none, true,
        [.searchCall 0, .sleep (RETRY_DELAY * 2 ^ 0), .searchCall 1,
         .sleep (RETRY_DELAY * 2 ^ 1), .searchCall 2]) := by
  rcases h1 with rfl | rfl <;> rcases h2 with rfl | rfl <;>
    rcases h3 with rfl | rfl <;>
      exact ⟨⟨rfl, rfl, rfl⟩, rfl⟩

/-- Witness for claim C5 at concrete statuses 403, 429, 429 and a
concrete one-element result list. -/
theorem C5_retry_ladder_witness :
    ((process_song_worker
        (envOf [.http 403 [], .http 429 [], .http 200 [⟨"t", "v"⟩]] .netErr)
        (ienvOf [.http 200] .netErr) ⟨1, 1, "q"⟩ false).1.status = .added ∧
      (process_song_worker
        (envOf [.http 403 [], .http 429 [], .http 200 [⟨"t", "v"⟩]] .netErr)
        (ienvOf [.http 200] .netErr) ⟨1, 1, "q"⟩ false).2.1 = false ∧
      sleeps (process_song_worker
        (envOf [.http 403 [], .http 429 [], .http 200 [⟨"t", "v"⟩]] .netErr)
        (ienvOf [.http 200] .netErr) ⟨1, 1, "q"⟩ false).2.2 =
        [RETRY_DELAY * 2 ^ 0, RETRY_DELAY * 2 ^ 1]) ∧
    async_search_youtube (envOf [.http 403 [], .http 429 [], .http 429 []] .netErr)
        false =
      (none, true,
        [.searchCall 0, .sleep (RETRY_DELAY * 2 ^ 0), .searchCall 1,
         .sleep (RETRY_DELAY * 2 ^ 1), .searchCall 2]) :=
  C5_retry_ladder ⟨1, 1, "q"⟩ ⟨"t", "v"⟩ [] 403 429 429
    (Or.inl rfl) (Or.inr rfl) (Or.inr rfl)

/-- Claim C6, counterexample.  The claim says the request client only
requests the breaker trip and never mutates the breaker state itself.
False: `async_search_youtube` assigns the global `quota_exceeded` flag
directly (line 170).  Calling the client alone, with no coordinator
involved, changes the breaker state from false to true. -/
theorem C6_counterexample :
    (async_search_youtube (envOf [] (.http 429 [])) false).2.1 = true := by
  decide

/-- Claim C6, amended.  The request clients themselves trip the
breaker: the quota flag returned by a search or insert call equals the
flag on entry OR-ed with whether that call's own retry ladder exhausted
its final attempt on a rate-limit status.  No separate coordinating
component performs the trip. -/
theorem C6_client_trips_breaker_itself (env : Nat → Resp) (ienv : Nat → IResp)
    (q : Bool) :
    (async_search_youtube env q).2.1 = (q || tripsFrom env 0 RETRY_ATTEMPTS) ∧
    (async_add_to_playlist ienv q).2.1 = (q || itripsFrom ienv 0 RETRY_ATTEMPTS) := by
  constructor
  · unfold async_search_youtube
    cases q
    · simpa using searchLoop_flag env false RETRY_ATTEMPTS 0
    · simp
  · unfold async_add_to_playlist
    cases q
    · simpa using insertLoop_flag ienv false RETRY_ATTEMPTS 0
    · simp


theorem filter_map_fst (processed : List Nat) :
    ∀ l : List (Nat × String),
      ((l.filter fun pr => !(processed.contains pr.1)).map Prod.fst) =
        (l.map Prod.fst).filter fun i => !(processed.contains i) := by
  intro l
  induction l with
  | nil => simp
  | cons x xs ih =>
    by_cases hm : x.1 ∈ processed <;> (simp [hm]; simpa using ih)

theorem enumerate1_map_fst (songs : List String) :
    (enumerate1 songs).map Prod.fst = List.range' 1 songs.length := by
  unfold enumerate1
  exact List.map_fst_zip _ _ (by simp)

theorem songs_to_process_map_id (songs : List String) (processed : List Nat) :
    (songs_to_process songs processed).map WorkItem.id =
      (List.range' 1 songs.length).filter fun i => !(processed.contains i) := by
  unfold songs_to_process
  rw [List.map_map]
  have hc : (WorkItem.id ∘ fun pr : Nat × String =>
      (⟨pr.1, songs.length, pr.2⟩ : WorkItem)) = Prod.fst := rfl
  rw [hc, filter_map_fst, enumerate1_map_fst]

/-- Claim C7 (confirmed).  For every source list and ledger state, the
scheduler prepares work items exactly for the 1-based indices of the
source list that are not in the processed set, in ascending index
order; in particular, with processed set containing 1 and 2 out of 5
items, the dispatched indices are exactly 3, 4, 5. -/
theorem C7_resume_dispatches_exactly_unprocessed (songs : List String)
    (processed : List Nat) :
    (songs_to_process songs processed).map WorkItem.id =
      ((List.range' 1 songs.length).filter fun i => !(processed.contains i)) ∧
    List.Pairwise (· < ·) ((songs_to_process songs processed).map WorkItem.id) ∧
    (songs_to_process ["a", "b", "c", "d", "e"] [1, 2]).map WorkItem.id =
      [3, 4, 5] := by
  refine ⟨songs_to_process_map_id songs processed, ?_, by decide⟩
  rw [songs_to_process_map_id]
  exact (List.pairwise_lt_range' 1 songs.length).sublist
    (List.filter_sublist _)

theorem mem_setAdd (p : List Nat) (i j : Nat) :
    j ∈ setAdd p i ↔ j ∈ p ∨ j = i := by
  unfold setAdd
  by_cases h : i ∈ p
  · simp only [if_pos h]
    constructor
    · exact Or.inl
    · rintro (hj | rfl)
      · exact hj
      · exact h
  · simp [h]

theorem keys_mapInsert (s : List (String × Outcome)) (k : String) (v : Outcome) :
    (mapInsert s k v).map Prod.fst =
      if k ∈ s.map Prod.fst then s.map Prod.fst else s.map Prod.fst ++ [k] := by
  unfold mapInsert
  by_cases h : k ∈ s.map Prod.fst
  · simp only [if_pos h, List.map_map]
    refine List.map_congr_left ?_
    intro kv _
    by_cases hk : kv.1 = k <;> simp [Function.comp, hk]
  · simp [h]

theorem ledgerInv_insert (p : List Nat) (s : List (String × Outcome)) (i : Nat)
    (o : Outcome) (h : ledgerInv p s) :
    ledgerInv (setAdd p i) (mapInsert s (toString i) o) := by
  obtain ⟨h1, h2⟩ := h
  constructor
  · intro j hj
    rw [keys_mapInsert]
    rcases (mem_setAdd p i j).mp hj with hjp | hji
    · by_cases hk : toString i ∈ s.map Prod.fst
      · simpa [hk] using h1 j hjp
      · simp only [if_neg hk, List.mem_append]
        exact Or.inl (h1 j hjp)
    · subst hji
      by_cases hk : toString j ∈ s.map Prod.fst
      · simp [hk]
      · simp [hk]
  · intro k hk
    rw [keys_mapInsert] at hk
    by_cases hmem : toString i ∈ s.map Prod.fst
    · rw [if_pos hmem] at hk
      obtain ⟨j, hjp, hjk⟩ := h2 k hk
      exact ⟨j, (mem_setAdd p i j).mpr (Or.inl hjp), hjk⟩
    · rw [if_neg hmem] at hk
      rcases List.mem_append.mp hk with hk1 | hk2
      · obtain ⟨j, hjp, hjk⟩ := h2 k hk1
        exact ⟨j, (mem_setAdd p i j).mpr (Or.inl hjp), hjk⟩
      · rw [List.mem_singleton.mp hk2]
        exact ⟨i, (mem_setAdd p i i).mpr (Or.inr rfl), rfl⟩

theorem ledgerInv_mergeResults :
    ∀ (rs : List (Except String Outcome)) (p : List Nat)
      (s : List (String × Outcome)), ledgerInv p s →
      ledgerInv (mergeResults p s rs).1 (mergeResults p s rs).2 := by
  intro rs
  induction rs with
  | nil => intro p s h; simpa [mergeResults] using h
  | cons r rest ih =>
    intro p s h
    cases r with
    | error e => simpa [mergeResults] using ih p s h
    | ok o => simpa [mergeResults] using ih _ _ (ledgerInv_insert p s o.id o h)

/-- Claim C8, counterexample.  The claim says the invariant
`processed_indices == keys(outcomes)` holds for the state returned by
load.  False in general: `load_progress` reads the two fields without
any cross-check, so a well-formed file whose processed list is `[1]`
but whose songs map is empty loads into a state violating the
invariant. -/
theorem C8_counterexample :
    ¬ ledgerInv (load_progress (some ⟨some [1], some []⟩)).1
        (load_progress (some ⟨some [1], some []⟩)).2 := by
  decide

/-- Claim C8, amended.  The invariant `processed_indices ==
keys(outcomes)` holds for the empty state load returns when the file is
missing or unparseable, holds for the state load returns whenever the
file's own two fields already satisfy it (in particular for any file
produced by save from an invariant state, since save serializes the
state verbatim), and is preserved by the post-batch merge; load itself,
however, does not enforce it on arbitrary files. -/
theorem C8_ledger_invariant_preserved :
    ledgerInv (load_progress none).1 (load_progress none).2 ∧
    (∀ f : LedgerFile,
      ledgerInv (f.processed_indices.getD []) (f.songs.getD []) →
      ledgerInv (load_progress (some f)).1 (load_progress (some f)).2) ∧
    (∀ (p : List Nat) (s : List (String × Outcome))
        (rs : List (Except String Outcome)), ledgerInv p s →
      ledgerInv (mergeResults p s rs).1 (mergeResults p s rs).2) := by
  refine ⟨by decide, ?_, ?_⟩
  · intro f h
    exact h
  · intro p s rs h
    exact ledgerInv_mergeResults rs p s h

/-- Witness for the amended claim C8 at a one-entry ledger merged with
one fresh outcome and one exception. -/
theorem C8_ledger_invariant_preserved_witness :
    ledgerInv [1] [("1", ⟨1, Status.added, some "v"⟩)] ∧
    ledgerInv
      (mergeResults [1] [("1", ⟨1, Status.added, some "v"⟩)]
        [.ok ⟨2, .not_found, none⟩, .error "boom"]).1
      (mergeResults [1] [("1", ⟨1, Status.added, some "v"⟩)]
        [.ok ⟨2, .not_found, none⟩, .error "boom"]).2 :=
  ⟨by decide,
   C8_ledger_invariant_preserved.2.2 [1] [("1", ⟨1, Status.added, some "v"⟩)]
     [.ok ⟨2, .not_found, none⟩, .error "boom"] (by decide)⟩

theorem mem_mergeResults_mono :
    ∀ (rs : List (Except String Outcome)) (p : List Nat)
      (s : List (String × Outcome)) (i : Nat), i ∈ p →
      i ∈ (mergeResults p s rs).1 := by
  intro rs
  induction rs with
  | nil => intro p s i h; simpa [mergeResults] using h
  | cons r rest ih =>
    intro p s i h
    cases r with
    | error e => simpa [mergeResults] using ih p s i h
    | ok o =>
      simpa [mergeResults] using
        ih _ _ i ((mem_setAdd p o.id i).mpr (Or.inl h))

theorem ok_mem_mergeResults :
    ∀ (rs : List (Except String Outcome)) (p : List Nat)
      (s : List (String × Outcome)) (o : Outcome), Except.ok o ∈ rs →
      o.id ∈ (mergeResults p s rs).1 := by
  intro rs
  induction rs with
  | nil => intro p s o h; simp at h
  | cons r rest ih =>
    intro p s o h
    cases r with
    | error e =>
      have hrest : Except.ok o ∈ rest := by simpa using h
      simpa [mergeResults] using ih p s o hrest
    | ok o' =>
      rcases List.mem_cons.mp h with he | hrest
      · have ho : o = o' := by injection he
        subst ho
        simpa [mergeResults] using
          mem_mergeResults_mono rest (setAdd p o.id)
            (mapInsert s (toString o.id) o) o.id
            ((mem_setAdd p o.id o.id).mpr (Or.inr rfl))
      · simpa [mergeResults] using ih _ _ o hrest

theorem songs_to_process_id_not_processed (songs : List String)
    (processed : List Nat) (it : WorkItem)
    (h : it ∈ songs_to_process songs processed) : it.id ∉ processed := by
  unfold songs_to_process at h
  rcases List.mem_map.mp h with ⟨pr, hpr, rfl⟩
  have hf := (List.mem_filter.mp hpr).2
  simpa using hf

/-- Claim C9 (confirmed).  Every batch result that is not an exception
— whatever its status, including `not_found`, `failed_to_add` and
`quota_exceeded`, not only `added` — has its index added to the
processed set by the post-batch merge, and a later run over the merged
ledger never prepares a work item for that index (the item stays
excluded until the ledger file is deleted). -/
theorem C9_every_outcome_marks_processed (p : List Nat)
    (s : List (String × Outcome)) (rs : List (Except String Outcome))
    (o : Outcome) (songs : List String) (h : Except.ok o ∈ rs) :
    o.id ∈ (mergeResults p s rs).1 ∧
    ∀ it ∈ songs_to_process songs (mergeResults p s rs).1, it.id ≠ o.id := by
  have hm := ok_mem_mergeResults rs p s o h
  refine ⟨hm, ?_⟩
  intro it hit he
  exact songs_to_process_id_not_processed songs _ it hit (he ▸ hm)

/-- Witness for claim C9: a `not_found` outcome for index 3 lands in
the processed set of the merged ledger. -/
theorem C9_every_outcome_marks_processed_witness :
    Except.ok (⟨3, Status.not_found, none⟩ : Outcome) ∈
      ([.ok ⟨3, .not_found, none⟩] : List (Except String Outcome)) ∧
    (⟨3, Status.not_found, none⟩ : Outcome).id ∈
      (mergeResults [] [] [.ok ⟨3, .not_found, none⟩]).1 :=
  ⟨List.mem_singleton.mpr rfl,
   (C9_every_outcome_marks_processed [] [] [.ok ⟨3, .not_found, none⟩]
      ⟨3, .not_found, none⟩ ["a", "b", "c"]
      (List.mem_singleton.mpr rfl)).1⟩

theorem songs_to_process_nil_of_all_processed (songs : List String)
    (processed : List Nat)
    (h : ∀ i ∈ List.range' 1 songs.length, i ∈ processed) :
    songs_to_process songs processed = [] := by
  unfold songs_to_process
  rw [List.map_eq_nil_iff, List.filter_eq_nil_iff]
  intro pr hpr
  obtain ⟨a, b⟩ := pr
  have ha : a ∈ List.range' 1 songs.length :=
    (List.of_mem_zip (by simpa [enumerate1] using hpr)).1
  simp [h a ha]

/-- Claim C10 (confirmed).  When the source list is empty, or every
1-based index of the source list is already in the loaded processed
set, `main` returns before creating any task: no worker is dispatched
and `save_progress` is never invoked, so the existing ledger file is
left untouched. -/
theorem C10_no_work_no_save (songs : List String) (lf : Option LedgerFile)
    (h : songs = [] ∨
      ∀ i ∈ List.range' 1 songs.length, i ∈ (load_progress lf).1) :
    mainEvents songs lf = [] ∧ MainEv.save ∉ mainEvents songs lf := by
  have hempty : mainEvents songs lf = [] := by
    rcases h with rfl | h
    · simp [mainEvents]
    · unfold mainEvents
      cases he : songs.isEmpty
      · simp [he, songs_to_process_nil_of_all_processed songs _ h]
      · simp [he]
  exact ⟨hempty, by simp [hempty]⟩

/-- Witness for claim C10: one source item whose index is already in
the ledger; the run produces no dispatch and no save event. -/
theorem C10_no_work_no_save_witness :
    mainEvents ["a"]
      (some ⟨some [1], some [("1", ⟨1, Status.added, some "v"⟩)]⟩) = [] ∧
    MainEv.save ∉ mainEvents ["a"]
      (some ⟨some [1], some [("1", ⟨1, Status.added, some "v"⟩)]⟩) :=
  C10_no_work_no_save ["a"]
    (some ⟨some [1], some [("1", ⟨1, Status.added, some "v"⟩)]⟩)
    (Or.inr (by decide))

end Spotify2YT
